import Mathlib

/-!
Shallow embedding of the `fin_tables_ocr` statement-extraction core
(`models.py`, `banks/truist/page_classifier.py`, `banks/truist/table_parsers.py`,
`banks/truist/parser.py`, `extractor.py`, `banks/detector.py`).

Page texts (the output of the external `pdfplumber` text extraction) are the
inputs, modelled as `List Char`.  Fallible Python operations return
`Except PyErr`; `try`/`except` blocks are explicit matches on the error kind.
Each compiled regular expression of the source is embedded as a dedicated
matcher specialised to that pattern's shape, with Python's leftmost-match /
greedy / lazy backtracking behaviour reproduced where the pattern needs it.
-/

namespace FinTbl

/-- ASCII-lowercased code point of a character: the comparison performed by
`re.IGNORECASE`, `str.lower` and `str.upper` on the ASCII inputs this parser
handles. -/
def lowN (c : Char) : Nat :=
  if 65 ≤ c.toNat ∧ c.toNat ≤ 90 then c.toNat + 32 else c.toNat

/-- Case-insensitive character equality (ASCII). -/
def ciEq (a b : Char) : Bool := lowN a == lowN b

/-- Python regex `\d` on the inputs handled here: the characters 0-9
(code points 48-57). -/
def isDig (c : Char) : Bool := 48 ≤ c.toNat && c.toNat ≤ 57

/-- Python regex `\s` and `str` whitespace on the inputs handled here:
space, tab, newline, CR, VT, FF. -/
def isWs (c : Char) : Bool :=
  c == ' ' || c == '\t' || c == '\n' || c == '\r' || c == '\x0b' || c == '\x0c'

/-- Python `str.strip()`. -/
def pyStrip (s : List Char) : List Char :=
  ((s.dropWhile isWs).reverse.dropWhile isWs).reverse

/-- Does `pat` occur case-insensitively at the head of `s`? -/
def startsCI : List Char → List Char → Bool
  | [], _ => true
  | _ :: _, [] => false
  | p :: ps, c :: cs => ciEq c p && startsCI ps cs

/-- Does `pat` occur exactly at the head of `s`? -/
def startsCS : List Char → List Char → Bool
  | [], _ => true
  | _ :: _, [] => false
  | p :: ps, c :: cs => (p == c) && startsCS ps cs

/-- Case-insensitive substring test: Python `pat in text.lower()` (or
`.upper()`) for an ASCII `pat`. -/
def containsCI (pat : List Char) : List Char → Bool
  | [] => startsCI pat []
  | s@(_ :: rest) => startsCI pat s || containsCI pat rest

/-- A matcher tries one embedded regex at the head of the input and reports
the number of characters the match consumed. -/
abbrev M := List Char → Option Nat

/-- Literal token, case-insensitive (`re.IGNORECASE` patterns). -/
def litM (pat : List Char) : M := fun s =>
  if startsCI pat s then some pat.length else none

/-- Literal token written as a string literal. -/
def lit (pat : String) : M := litM pat.data

/-- Length of the maximal whitespace run at the head of `s`. -/
def wsRun (s : List Char) : Nat := (s.takeWhile isWs).length

/-- Greedy `\s*` in a context where the following token cannot begin with
whitespace (then no backtracking can occur). -/
def wsStarM : M := fun s => some (wsRun s)

/-- Greedy `\s+` in a context where the following token cannot begin with
whitespace. -/
def wsPlusM : M := fun s =>
  let n := wsRun s
  if n = 0 then none else some n

/-- Optional literal character `x?` (case-insensitive) in a context where
the following tokens cannot consume that character. -/
def optCharM (c : Char) : M := fun s =>
  match s with
  | c2 :: _ => if ciEq c2 c then some 1 else some 0
  | [] => some 0

/-- Index just past the last newline of `l`, if any. -/
def lastNl : List Char → Option Nat
  | [] => none
  | c :: rest =>
    match lastNl rest with
    | some i => some (i + 1)
    | none => if c == '\n' then some 1 else none

/-- `\s*\n`: because `\n` is itself whitespace, Python's greedy backtracking
ends this match just past the last newline inside the maximal whitespace run
at the current position. -/
def wsStarNlM : M := fun s => lastNl (s.takeWhile isWs)

/-- Sequencing of matchers. -/
def seqM (a b : M) : M := fun s =>
  match a s with
  | none => none
  | some n => (b (s.drop n)).map (n + ·)

/-- Alternation: the left branch is preferred, as in Python's regexes. -/
def altM (a b : M) : M := fun s =>
  match a s with
  | some n => some n
  | none => b s

/-- The empty matcher. -/
def epsM : M := fun _ => some 0

/-- Sequencing of a list of matchers. -/
def seqs (l : List M) : M := l.foldr seqM epsM

/-- Leftmost match (`re.search`): (start, consumed length). -/
def searchAux (m : M) : List Char → Nat → Option (Nat × Nat)
  | [], i => (m []).map (fun n => (i, n))
  | s@(_ :: rest), i =>
    match m s with
    | some n => some (i, n)
    | none => searchAux m rest (i + 1)

/-- `re.search` over a text. -/
def searchM (m : M) (s : List Char) : Option (Nat × Nat) := searchAux m s 0

/-- Leftmost match of a capturing matcher: (start, consumed, captures). -/
def searchCap {α : Type} (m : List Char → Option (Nat × α)) :
    List Char → Option (Nat × Nat × α)
  | [] =>
    match m [] with
    | some (n, a) => some (0, n, a)
    | none => none
  | s@(_ :: rest) =>
    match m s with
    | some (n, a) => some (0, n, a)
    | none => (searchCap m rest).map (fun r => (r.1 + 1, r.2))

/-- All non-overlapping leftmost matches (`re.finditer`), fuelled by the
text length (every match consumes at least one character here). -/
def findAllAux (m : M) : Nat → List Char → Nat → List (Nat × Nat)
  | 0, _, _ => []
  | fuel + 1, s, base =>
    match searchM m s with
    | none => []
    | some (p, n) =>
      (base + p, n) :: findAllAux m fuel (s.drop (p + max n 1)) (base + p + max n 1)

/-- `re.finditer`: the list of (start, consumed) of all matches. -/
def findAllM (m : M) (s : List Char) : List (Nat × Nat) :=
  findAllAux m (s.length + 1) s 0

/-- All non-overlapping captures of a capturing matcher (`re.finditer`). -/
def findAllCap {α : Type} (m : List Char → Option (Nat × α)) :
    Nat → List Char → List α
  | 0, _ => []
  | fuel + 1, s =>
    match searchCap m s with
    | none => []
    | some (p, n, a) => a :: findAllCap m fuel (s.drop (p + max n 1))

/-- Python slice `s[a:b]` for non-negative clamped indices. -/
def slice (s : List Char) (a b : Nat) : List Char := (s.take b).drop a

/-- Python `str.split(sep)` for a one-character separator. -/
def splitCh (sep : Char) : List Char → List (List Char)
  | [] => [[]]
  | c :: rest =>
    let r := splitCh sep rest
    if c == sep then [] :: r
    else
      match r with
      | h :: t => (c :: h) :: t
      | [] => [[c]]

/-- The Python exception kinds the repository's code can raise or catch. -/
inductive PyErr where
  | valueError
  | invalidOperation
  | indexError
deriving DecidableEq, Repr

/-- Natural value of a digit string. -/
def digitsVal (l : List Char) : Nat := l.foldl (fun a c => a * 10 + (c.toNat - 48)) 0

/-- Python `int(str)`: optional surrounding whitespace, optional sign, then a
nonempty digit run.  (The underscore digit grouping `int` also accepts is
never exercised here: every call site passes a capture of `\d+` or `\d{k}`.) -/
def pyIntE (s : List Char) : Except PyErr Int :=
  let t := pyStrip s
  match t with
  | '-' :: ds =>
    if ds ≠ [] ∧ ds.all isDig then .ok (-(digitsVal ds : Int)) else .error .valueError
  | '+' :: ds =>
    if ds ≠ [] ∧ ds.all isDig then .ok (digitsVal ds) else .error .valueError
  | ds =>
    if ds ≠ [] ∧ ds.all isDig then .ok (digitsVal ds) else .error .valueError

/-- A value of Python's `decimal.Decimal`: finite values keep sign,
coefficient and exponent exactly as parsed; the special values are NaN and
signed infinity. -/
inductive PyDecimal where
  | fin (neg : Bool) (coeff : Nat) (exp : Int)
  | nan
  | inf (neg : Bool)
deriving DecidableEq, Repr

/-- Body of a decimal numeric string after the optional sign:
`digits [. digits] | [.] digits`, then an optional exponent part
(`decimal` module grammar). -/
def decBody (neg : Bool) (t : List Char) : Option PyDecimal :=
  let ip := t.takeWhile isDig
  let r1 := t.drop ip.length
  let step : List Char × Int × List Char :=
    match r1 with
    | '.' :: r =>
      let fp := r.takeWhile isDig
      (ip ++ fp, -(fp.length : Int), r.drop fp.length)
    | _ => (ip, 0, r1)
  let coeff := step.1
  let exp0 := step.2.1
  let r2 := step.2.2
  if coeff = [] then none
  else
    match r2 with
    | [] => some (.fin neg (digitsVal coeff) exp0)
    | e :: r3 =>
      if ciEq e 'e' then
        let se : Bool × List Char :=
          match r3 with
          | '-' :: r => (true, r)
          | '+' :: r => (false, r)
          | _ => (false, r3)
        let ed := se.2.takeWhile isDig
        if ed ≠ [] ∧ se.2.drop ed.length = [] then
          some (.fin neg (digitsVal coeff)
            (exp0 + (if se.1 then -(digitsVal ed : Int) else (digitsVal ed : Int))))
        else none
      else none

/-- The optional-sign step of the `Decimal` numeric-string grammar. -/
def decSign (t : List Char) : Bool × List Char :=
  match t with
  | '-' :: r => (true, r)
  | '+' :: r => (false, r)
  | _ => (false, t)

/-- The `Decimal` constructor's numeric-string grammar: optional surrounding
whitespace, optional sign, then a finite value, `Infinity`/`Inf`, or
`NaN`/`sNaN` with an optional digit payload — all case-insensitive. -/
def decParse (s : List Char) : Option PyDecimal :=
  let t := pyStrip s
  let sb := decSign t
  let neg := sb.1
  let b := sb.2
  if startsCI "infinity".data b ∧ b.length = 8 then some (.inf neg)
  else if startsCI "inf".data b ∧ b.length = 3 then some (.inf neg)
  else if startsCI "nan".data b ∧ (b.drop 3).all isDig then some .nan
  else if startsCI "snan".data b ∧ (b.drop 4).all isDig then some .nan
  else decBody neg b

/-- Remove every comma (Python `str.replace(",", "")`). -/
def stripCommas (s : List Char) : List Char := s.filter (· ≠ ',')

/-- `parse_amount` (table_parsers.py): strip thousands separators and
surrounding whitespace, then apply the `Decimal` constructor; an invalid
numeric string raises `InvalidOperation`. -/
def parse_amount (s : List Char) : Except PyErr PyDecimal :=
  let cleaned := pyStrip (stripCommas s)
  match decParse cleaned with
  | some d => .ok d
  | none => .error .invalidOperation

/-- A Python `datetime.date`. -/
structure PyDate where
  year : Int
  month : Nat
  day : Nat
deriving DecidableEq, Repr

/-- Gregorian leap-year rule used by `datetime.date`. -/
def isLeap (y : Int) : Bool := y % 4 == 0 && (y % 100 != 0 || y % 400 == 0)

/-- Days in a month of a given year. -/
def daysInMonth (y : Int) (m : Nat) : Nat :=
  if m = 2 then (if isLeap y then 29 else 28)
  else if m = 4 ∨ m = 6 ∨ m = 9 ∨ m = 11 then 30
  else 31

/-- `datetime.date(y, m, d)`: `none` when a component is out of range
(Python raises `ValueError`). -/
def mkDate (y m d : Int) : Option PyDate :=
  if 1 ≤ y ∧ y ≤ 9999 ∧ 1 ≤ m ∧ m ≤ 12 ∧ 1 ≤ d ∧ d ≤ (daysInMonth y m.toNat : Int)
  then some ⟨y, m.toNat, d.toNat⟩ else none

/-- `parse_date` (table_parsers.py): split `MM/DD` on `/` and build a date in
the given year; a bad split arity or an out-of-range component raises
`ValueError`. -/
def parse_date (s : List Char) (year : Int) : Except PyErr PyDate :=
  match splitCh '/' s with
  | [ms, ds] => do
    let m ← pyIntE ms
    let d ← pyIntE ds
    match mkDate year m d with
    | some dt => .ok dt
    | none => .error .valueError
  | _ => .error .valueError

/-- `TransactionType` (models.py); `value` is the declared string value. -/
inductive TransactionType where
  | check
  | withdrawal
  | deposit
deriving DecidableEq, Repr

/-- The enum member's string value. -/
def TransactionType.value : TransactionType → List Char
  | .check => "check".data
  | .withdrawal => "withdrawal".data
  | .deposit => "deposit".data

/-- `Transaction` (models.py).  The lender-tagging fields are populated by a
later external pass and play no role in the claims. -/
structure Transaction where
  date : PyDate
  description : List Char
  amount : PyDecimal
  transaction_type : TransactionType
  check_number : Option Int
deriving DecidableEq, Repr

/-- Pydantic's `ge=0` validation of the `amount` field: NaN fails, a negative
zero still passes. -/
def PyDecimal.geZero : PyDecimal → Bool
  | .fin neg c _ => !neg || c == 0
  | .inf neg => !neg
  | .nan => false

/-- Construct a `Transaction`: pydantic validates `amount ≥ 0` and raises a
`ValidationError` (a `ValueError` subclass) on failure. -/
def mkTransaction (d : PyDate) (desc : List Char) (amt : PyDecimal)
    (tt : TransactionType) (cn : Option Int) : Except PyErr Transaction :=
  if amt.geZero then .ok ⟨d, desc, amt, tt, cn⟩ else .error .valueError

/-- `BankStatement` (models.py). -/
structure BankStatement where
  bank_name : List Char
  account_number : Option (List Char)
  statement_period_start : Option PyDate
  statement_period_end : Option PyDate
  transactions : List Transaction
deriving DecidableEq, Repr

/-- `Checks\s*\n` (IGNORECASE): the checks-section anchor. -/
def chkHeaderM : M := seqM (lit "checks") wsStarNlM

/-- `DATE\s+DESCRIPTION\s+AMOUNT` (IGNORECASE): the table header. -/
def thM : M :=
  seqs [lit "date", wsPlusM, lit "description", wsPlusM, lit "amount"]

/-- `(Total\s*checks|\*\s*indicates|Other\s*withdraw|Otherwithdraw|DATE\s+DESCRIPTION\s+AMOUNT)`:
the terminators of the checks section. -/
def nextSectionM : M :=
  altM (seqs [lit "total", wsStarM, lit "checks"])
    (altM (seqs [lit "*", wsStarM, lit "indicates"])
      (altM (seqs [lit "other", wsStarM, lit "withdraw"])
        (altM (lit "otherwithdraw") thM)))

/-- The check-entry pattern `(\d{2}/\d{2})\s+\*?(\d+)\s+([\d,]+\.\d{2})` at
the head of `s`: (consumed, date capture, check-number capture, amount
capture).  Every quantifier here is greedy and followed by a token outside
its character class, so no backtracking can change the outcome. -/
def checkEntryAt (s : List Char) : Option (Nat × List Char × List Char × List Char) :=
  match s with
  | a :: b :: '/' :: c :: d :: rest =>
    if isDig a ∧ isDig b ∧ isDig c ∧ isDig d then
      let w1 := wsRun rest
      if w1 = 0 then none
      else
        let r1 := rest.drop w1
        let sr : Nat × List Char :=
          match r1 with
          | '*' :: r => (1, r)
          | _ => (0, r1)
        let num := sr.2.takeWhile isDig
        if num = [] then none
        else
          let r3 := sr.2.drop num.length
          let w2 := wsRun r3
          if w2 = 0 then none
          else
            let r4 := r3.drop w2
            let ipart := r4.takeWhile (fun ch => isDig ch || ch == ',')
            if ipart = [] then none
            else
              match r4.drop ipart.length with
              | '.' :: e :: f :: _ =>
                if isDig e ∧ isDig f then
                  some (5 + w1 + sr.1 + num.length + w2 + ipart.length + 3,
                        [a, b, '/', c, d], num, ipart ++ ['.', e, f])
                else none
              | _ => none
    else none
  | _ => none

/-- The loop body of `extract_checks_from_page`: each matched entry is built
inside a `try` whose `except (ValueError, InvalidOperation)` skips just that
entry. -/
def checksGo (year : Int) : List (List Char × List Char × List Char) →
    Except PyErr (List Transaction)
  | [] => .ok []
  | (ds, num, amt) :: rest =>
    match (do
      let d ← parse_date ds year
      let a ← parse_amount amt
      let cn ← pyIntE num
      mkTransaction d ("Check #".data ++ num) a .check (some cn)) with
    | .ok t => (checksGo year rest).map (t :: ·)
    | .error .valueError => checksGo year rest
    | .error .invalidOperation => checksGo year rest
    | .error e => .error e

/-- `extract_checks_from_page` (the page's extracted text is the input). -/
def extract_checks_from_page (text : List Char) (year : Int) :
    Except PyErr (List Transaction) :=
  match searchM chkHeaderM text with
  | none => .ok []
  | some (p, n) =>
    let checks_start := p + n
    let tail := text.drop checks_start
    let checks_end :=
      match searchM nextSectionM tail with
      | some (q, _) => checks_start + q
      | none => text.length
    let checks_text := slice text checks_start checks_end
    checksGo year (findAllCap checkEntryAt (checks_text.length + 1) checks_text)

/-- `\s+([\d,]+\.\d{2})\s*$` against the tail of a line: the amount capture.
`$` here is equivalent to "the rest is all whitespace" because the line
contains no interior newline. -/
def amtTail (t : List Char) : Option (List Char) :=
  let w := wsRun t
  if w = 0 then none
  else
    let t2 := t.drop w
    let ip := t2.takeWhile (fun ch => isDig ch || ch == ',')
    if ip = [] then none
    else
      match t2.drop ip.length with
      | '.' :: e :: f :: rest =>
        if isDig e ∧ isDig f ∧ rest.all isWs then some (ip ++ ['.', e, f]) else none
      | _ => none

/-- The lazy `(.+?)` of the line pattern: grow the description one character
at a time (shortest first), failing on a newline, until the amount tail
matches. -/
def txnDescLoop (pre : List Char) : Nat → List Char → Option (List Char × List Char)
  | 0, _ => none
  | fuel + 1, t =>
    match t with
    | [] => none
    | c :: rest =>
      if c = '\n' then none
      else
        let desc := pre ++ [c]
        match amtTail rest with
        | some amt => some (desc, amt)
        | none => txnDescLoop desc fuel rest

/-- The greedy leading `\s+` of the line pattern: try widths from the full
whitespace run down to 1, re-running the lazy description each time. -/
def txnWsLoop (rest : List Char) : Nat → Option (List Char × List Char)
  | 0 => none
  | w + 1 =>
    match txnDescLoop [] rest.length (rest.drop (w + 1)) with
    | some r => some r
    | none => txnWsLoop rest w

/-- `re.match` of `^(\d{2}/\d{2})\s+(.+?)\s+([\d,]+\.\d{2})\s*$` against a
stripped line: (date, description, amount) captures. -/
def matchTxnLine (s : List Char) : Option (List Char × List Char × List Char) :=
  match s with
  | a :: b :: '/' :: c :: d :: rest =>
    if isDig a ∧ isDig b ∧ isDig c ∧ isDig d then
      match txnWsLoop rest (wsRun rest) with
      | some (desc, amt) => some ([a, b, '/', c, d], desc, amt)
      | none => none
    else none
  | _ => none

/-- One loop iteration of `_extract_transactions_from_text`: header, footer
and `continued` lines are skipped; a matching line yields a record unless a
conversion or validation failure (`ValueError`/`InvalidOperation`, both
caught) skips that single line. -/
def lineTxnE (year : Int) (tt : TransactionType) (line : List Char) :
    Except PyErr (Option Transaction) :=
  if containsCI "description".data line ∧ containsCI "amount".data line then .ok none
  else if containsCI "date".data line ∧ containsCI "check".data line then .ok none
  else if containsCI "continued".data line then .ok none
  else if containsCI "page".data line ∧ containsCI "of".data line then .ok none
  else
    match matchTxnLine (pyStrip line) with
    | none => .ok none
    | some (ds, desc0, amt) =>
      let desc := pyStrip desc0
      if desc = [] ∨ desc.length < 3 then .ok none
      else
        match (do
          let d ← parse_date ds year
          let a ← parse_amount amt
          mkTransaction d desc a tt none) with
        | .ok t => .ok (some t)
        | .error .valueError => .ok none
        | .error .invalidOperation => .ok none
        | .error e => .error e

/-- The accumulating loop of `_extract_transactions_from_text`. -/
def txnLinesGo (year : Int) (tt : TransactionType) :
    List (List Char) → Except PyErr (List Transaction)
  | [] => .ok []
  | l :: ls => do
    let o ← lineTxnE year tt l
    let rest ← txnLinesGo year tt ls
    .ok (o.toList ++ rest)

/-- `_extract_transactions_from_text` (table_parsers.py). -/
def extract_transactions_from_text (text : List Char) (year : Int)
    (tt : TransactionType) : Except PyErr (List Transaction) :=
  txnLinesGo year tt (splitCh '\n' text)

/-- The per-page marker dictionary built by `_find_section_markers`. -/
structure Markers where
  withdraw_header : Option Nat := none
  withdraw_table : Option Nat := none
  deposit_header : Option Nat := none
  deposit_table : Option Nat := none
  total_withdraw : Option Nat := none
  total_deposit : Option Nat := none
deriving DecidableEq, Repr

/-- `(Other\s*withdrawals?,?\s*debits|Otherwithdrawals?,?debits)` (IGNORECASE). -/
def withdrawHdrM : M :=
  altM
    (seqs [lit "other", wsStarM, lit "withdrawal", optCharM 's', optCharM ',', wsStarM,
      lit "debits"])
    (seqs [lit "otherwithdrawal", optCharM 's', optCharM ',', lit "debits"])

/-- `(Deposits,?\s*credits\s*and\s*interest|Deposits,?creditsandinterest)` (IGNORECASE). -/
def depositHdrM : M :=
  altM
    (seqs [lit "deposits", optCharM ',', wsStarM, lit "credits", wsStarM, lit "and",
      wsStarM, lit "interest"])
    (seqs [lit "deposits", optCharM ',', lit "creditsandinterest"])

/-- `Total\s*other\s*withdrawals|Totalotherwithdrawals` (IGNORECASE). -/
def totalWithdrawM : M :=
  altM (seqs [lit "total", wsStarM, lit "other", wsStarM, lit "withdrawals"])
    (lit "totalotherwithdrawals")

/-- `Total\s*deposits|Totaldeposits` (IGNORECASE). -/
def totalDepositM : M :=
  altM (seqs [lit "total", wsStarM, lit "deposits"]) (lit "totaldeposits")

/-- Per-table-header step of `_find_section_markers`: look back up to 100
characters for a category header, rejecting one preceded (within 10
characters) by "total"; the first table header to set a key wins. -/
def markersStep (text : List Char) (m : Markers) (th : Nat × Nat) : Markers :=
  let thStart := th.1
  let thEnd := th.1 + th.2
  let pre := slice text (thStart - 100) thStart
  let m1 :=
    match searchM withdrawHdrM pre with
    | some (ws, _) =>
      if m.withdraw_header = none then
        if containsCI "total".data (slice pre (ws - 10) ws) then m
        else { m with withdraw_header := some (thStart - pre.length + ws),
                      withdraw_table := some thEnd }
      else m
    | none => m
  match searchM depositHdrM pre with
  | some (ds, _) =>
    if m1.deposit_header = none then
      if containsCI "total".data (slice pre (ds - 10) ds) then m1
      else { m1 with deposit_header := some (thStart - pre.length + ds),
                     deposit_table := some thEnd }
    else m1
  | none => m1

/-- `_find_section_markers` (table_parsers.py). -/
def find_section_markers (text : List Char) : Markers :=
  let ths := findAllM thM text
  let m0 := ths.foldl (markersStep text) {}
  let m1 :=
    match searchM totalWithdrawM text with
    | some (p, _) => { m0 with total_withdraw := some p }
    | none => m0
  match searchM totalDepositM text with
  | some (p, _) => { m1 with total_deposit := some p }
  | none => m1

/-- `"(continued)" in text[:200].lower()`. -/
def isContinuation (text : List Char) : Bool :=
  containsCI "(continued)".data (text.take 200)

/-- The deposit-indicative keywords checked against the content window. -/
def depositKws : List (List Char) :=
  ["DEPOSIT".data, "EDI PYMNTS".data, "PAYABLES".data, "INCOMING WIRE".data]

/-- The withdrawal-indicative keywords checked against the content window. -/
def withdrawalKws : List (List Char) :=
  ["DEBIT".data, "ACH CORP DEBIT".data, "WIRE REF#".data, "ZELLE".data]

/-- `any(kw in content.upper() for kw in kws)`. -/
def hasKw (kws : List (List Char)) (content : List Char) : Bool :=
  kws.any (fun kw => containsCI kw content)

/-- `continued\s*\n|§\s*PAGE` (IGNORECASE): the generic page-break marker. -/
def contPageM : M :=
  altM (seqM (lit "continued") wsStarNlM) (seqs [lit "§", wsStarM, lit "page"])

/-- `Important:|§\s*PAGE` (IGNORECASE): the deposits end marker. -/
def importantPageM : M :=
  altM (lit "important:") (seqs [lit "§", wsStarM, lit "page"])

/-- The `(start, end)` span computed by `extract_withdrawals_from_page`
(lines 177-227) before the final slice; `none` when the page contributes no
withdrawals. -/
def withdrawalsSpan (text : List Char) : Option (Nat × Nat) :=
  let markers := find_section_markers text
  let is_continuation := isContinuation text
  let se : Option Nat × Option Nat :=
    match markers.withdraw_table with
    | some wt => (some wt, none)
    | none =>
      if is_continuation then
        match markers.total_withdraw with
        | some tw =>
          match searchM thM text with
          | some (p, n) => (some (p + n), some tw)
          | none => (none, none)
        | none =>
          if markers.deposit_header = none ∧ markers.deposit_table = none then
            match searchM thM text with
            | some (p, n) =>
              let content := slice text (p + n) (p + n + 500)
              let has_deposits := hasKw depositKws content
              let has_withdrawals := hasKw withdrawalKws content
              if has_withdrawals ∧ ¬ has_deposits then (some (p + n), none)
              else if has_withdrawals ∧ has_deposits then (some (p + n), none)
              else (none, none)
            | none => (none, none)
          else (none, none)
      else (none, none)
  match se.1 with
  | none => none
  | some s =>
    match se.2 with
    | some e => some (s, e)
    | none =>
      match markers.deposit_header with
      | some dh => some (s, dh)
      | none =>
        match markers.total_withdraw with
        | some tw => some (s, tw)
        | none =>
          match searchM contPageM (text.drop s) with
          | some (q, _) => some (s, s + q)
          | none => some (s, text.length)

/-- `extract_withdrawals_from_page` (the page's extracted text is the input). -/
def extract_withdrawals_from_page (text : List Char) (year : Int) :
    Except PyErr (List Transaction) :=
  match withdrawalsSpan text with
  | none => .ok []
  | some (s, e) => extract_transactions_from_text (slice text s e) year .withdrawal

/-- The start offset computed by `extract_deposits_from_page` (lines 241-274);
`none` when the page contributes no deposits. -/
def depositsStart (text : List Char) : Option Nat :=
  let markers := find_section_markers text
  let is_continuation := isContinuation text
  match markers.deposit_table with
  | some dt => some dt
  | none =>
    if is_continuation then
      match markers.total_withdraw with
      | some tw =>
        match searchM thM (text.drop tw) with
        | some (p, n) => some (tw + (p + n))
        | none => none
      | none =>
        if markers.withdraw_header = none ∧ markers.withdraw_table = none then
          match searchM thM text with
          | some (p, n) =>
            if hasKw depositKws (slice text (p + n) (p + n + 500)) then some (p + n)
            else none
          | none => none
        else none
    else none

/-- The `(start, end)` span of `extract_deposits_from_page` (lines 241-284). -/
def depositsSpan (text : List Char) : Option (Nat × Nat) :=
  let markers := find_section_markers text
  match depositsStart text with
  | none => none
  | some s =>
    match markers.total_deposit with
    | some td => some (s, td)
    | none =>
      match searchM importantPageM (text.drop s) with
      | some (q, _) => some (s, s + q)
      | none => some (s, text.length)

/-- `extract_deposits_from_page` (the page's extracted text is the input). -/
def extract_deposits_from_page (text : List Char) (year : Int) :
    Except PyErr (List Transaction) :=
  match depositsSpan text with
  | none => .ok []
  | some (s, e) => extract_transactions_from_text (slice text s e) year .deposit

/-- The five `TRANSACTION_INDICATORS` patterns (page_classifier.py). -/
def transactionMs : List M :=
  [ lit "checks",
    seqs [lit "other", wsStarM, lit "withdrawals"],
    seqs [lit "deposits", optCharM ',', wsStarM, lit "credits"],
    thM,
    seqs [lit "date", wsPlusM, lit "check", wsStarM, lit "#", wsPlusM, lit "amount"] ]

/-- The five `BOILERPLATE_INDICATORS` patterns (page_classifier.py). -/
def boilerplateMs : List M :=
  [ seqs [lit "questions", optCharM ',', wsStarM, lit "comments", wsStarM, lit "or",
      wsStarM, lit "errors", lit "?"],
    seqs [lit "electronic", wsStarM, lit "fund", wsStarM, lit "transfers"],
    seqs [lit "how", wsStarM, lit "to", wsStarM, lit "reconcile", wsStarM, lit "your",
      wsStarM, lit "account"],
    seqs [lit "billing", wsStarM, lit "rights", wsStarM, lit "summary"],
    seqs [lit "mail-in", wsStarM, lit "deposits"] ]

/-- Does some boilerplate pattern match somewhere in the text? -/
def hasBoilerplate (text : List Char) : Bool :=
  boilerplateMs.any (fun m => (searchM m text).isSome)

/-- Does some transaction-indicator pattern match somewhere in the text? -/
def hasTransactionIndicator (text : List Char) : Bool :=
  transactionMs.any (fun m => (searchM m text).isSome)

/-- End offset of the last `\d+\.\d{2}` completion inside `l` (the greedy
`.*` of the fallback row pattern extends its match to the last completion on
the line). -/
def lastAmtEnd : List Char → Option Nat
  | [] => none
  | c :: rest =>
    match lastAmtEnd rest with
    | some n => some (n + 1)
    | none =>
      match c :: rest with
      | d1 :: '.' :: e :: _ :: _ =>
        match rest with
        | _ :: _ :: f :: _ =>
          if isDig d1 ∧ isDig e ∧ isDig f then some 4 else none
        | _ => none
      | _ => none

/-- `\d{2}/\d{2}\s+.*\d+\.\d{2}` at the head of `s` (the classifier's
fallback row pattern).  `\s+` may cross newlines but `.*` may not, and the
whitespace run holds no digits, so a completion can only occur on the line
that starts where the whitespace run ends. -/
def dateAmtAt (s : List Char) : Option Nat :=
  match s with
  | a :: b :: '/' :: c :: d :: rest =>
    if isDig a ∧ isDig b ∧ isDig c ∧ isDig d then
      let w := wsRun rest
      if w = 0 then none
      else
        (lastAmtEnd ((rest.drop w).takeWhile (fun ch => ch ≠ '\n'))).map
          (fun e => 5 + w + e)
    else none
  | _ => none

/-- `is_transaction_page` (the page's extracted text is the input). -/
def is_transaction_page (text : List Char) : Bool :=
  if hasBoilerplate text then false
  else if (pyStrip text).length < 100 then false
  else if hasTransactionIndicator text then true
  else if 3 ≤ (findAllM (fun s => dateAmtAt s) text).length then true
  else false

/-- `classify_pages`: the page-index → Bool map, aligned with the page list. -/
def classify_pages (pages : List (List Char)) : List Bool :=
  pages.map is_transaction_page

/-- `For\s*(\d{2}/\d{2}/(\d{4}|\d{2}))` (case-sensitive); the capture is
group 2, the year digits.  The alternation prefers the 4-digit branch. -/
def forDateAt (s : List Char) : Option (Nat × List Char) :=
  match s with
  | 'F' :: 'o' :: 'r' :: rest =>
    let w := wsRun rest
    match rest.drop w with
    | a :: b :: '/' :: c :: d :: '/' :: r2 =>
      if isDig a ∧ isDig b ∧ isDig c ∧ isDig d then
        let y4 := r2.take 4
        if y4.length = 4 ∧ y4.all isDig then some (3 + w + 6 + 4, y4)
        else
          let y2 := r2.take 2
          if y2.length = 2 ∧ y2.all isDig then some (3 + w + 6 + 2, y2)
          else none
      else none
    | _ => none
  | _ => none

/-- `20\d{2}`: the fallback year pattern. -/
def year20At (s : List Char) : Option (Nat × List Char) :=
  match s with
  | '2' :: '0' :: c :: d :: _ =>
    if isDig c ∧ isDig d then some (4, ['2', '0', c, d]) else none
  | _ => none

/-- `CHECKING\s*(\d+)` (case-sensitive); the capture is the digit run. -/
def checkingAt (s : List Char) : Option (Nat × List Char) :=
  if startsCS "CHECKING".data s then
    let r := s.drop 8
    let w := wsRun r
    let ds := (r.drop w).takeWhile isDig
    if ds = [] then none else some (8 + w + ds.length, ds)
  else none

/-- `TruistParser._extract_metadata` on the first page's text; `todayYear`
models `date.today().year`.  Returns the statement year and the account
number capture. -/
def extract_metadata (text : List Char) (todayYear : Int) :
    Except PyErr (Int × Option (List Char)) := do
  let year ←
    match searchCap forDateAt text with
    | some (_, _, ys) =>
      if ys.length = 2 then do
        let n ← pyIntE ys
        pure (2000 + n)
      else
        pyIntE ys
    | none =>
      match searchCap year20At text with
      | some (_, _, ys) => pyIntE ys
      | none => pure todayYear
  .ok (year, (searchCap checkingAt text).map (fun r => r.2.2))

/-- `previous|new` `\s*balance\s*as\s*of\s*(\d{2}/\d{2}/\d{4})` (IGNORECASE);
the capture is the full date string. -/
def balAt (word : List Char) (s : List Char) : Option (Nat × List Char) :=
  match seqs [litM word, wsStarM, lit "balance", wsStarM, lit "as", wsStarM, lit "of",
      wsStarM] s with
  | none => none
  | some n =>
    match s.drop n with
    | a :: b :: '/' :: c :: d :: '/' :: e :: f :: g :: h :: _ =>
      if [a, b, c, d, e, f, g, h].all isDig then
        some (n + 10, [a, b, '/', c, d, '/', e, f, g, h])
      else none
    | _ => none

/-- `date(int(parts[2]), int(parts[0]), int(parts[1]))` applied to the split
of a matched period date string (parser.py lines 89-94). -/
def periodDateE (g : List Char) : Except PyErr PyDate :=
  match splitCh '/' g with
  | p0 :: p1 :: p2 :: _ => do
    let y ← pyIntE p2
    let m ← pyIntE p0
    let d ← pyIntE p1
    match mkDate y m d with
    | some dt => .ok dt
    | none => .error .valueError
  | _ => .error .indexError

/-- `TruistParser._extract_statement_period`; `year` is `self._year`
(Python's `not self._year` is true for `None` and for a zero year). -/
def extract_statement_period (text : List Char) (year : Option Int) :
    Except PyErr (Option PyDate × Option PyDate) :=
  if year = none ∨ year = some 0 then .ok (none, none)
  else do
    let sm := searchCap (balAt "previous".data) text
    let em := searchCap (balAt "new".data) text
    let sd ← match sm with
      | some (_, _, g) => (periodDateE g).map some
      | none => pure (none : Option PyDate)
    let ed ← match em with
      | some (_, _, g) => (periodDateE g).map some
      | none => pure (none : Option PyDate)
    .ok (sd, ed)

/-- The per-page extraction step of `TruistParser.parse`: checks, then
withdrawals, then deposits. -/
def pageTxns (year : Int) (page : List Char) : Except PyErr (List Transaction) := do
  let checks ← extract_checks_from_page page year
  let withdrawals ← extract_withdrawals_from_page page year
  let deposits ← extract_deposits_from_page page year
  .ok (checks ++ withdrawals ++ deposits)

/-- The page loop of `TruistParser.parse` over (page text, classification)
pairs. -/
def pagesTxns (year : Int) : List (List Char × Bool) → Except PyErr (List Transaction)
  | [] => .ok []
  | (page, flag) :: rest =>
    if flag then do
      let ts ← pageTxns year page
      let more ← pagesTxns year rest
      .ok (ts ++ more)
    else
      pagesTxns year rest

/-- Lexicographic order on char lists by code point: Python `str` comparison. -/
def strLt : List Char → List Char → Bool
  | [], [] => false
  | [], _ :: _ => true
  | _ :: _, [] => false
  | x :: xs, y :: ys => if x = y then strLt xs ys else x.toNat < y.toNat

/-- Python `<` on `date` objects: lexicographic on (year, month, day). -/
def dateLt (a b : PyDate) : Bool :=
  a.year < b.year ||
    (a.year == b.year &&
      (a.month < b.month || (a.month == b.month && a.day < b.day)))

/-- Python tuple comparison of the sort keys
`(t.date, t.transaction_type.value)` used by `parse`'s final sort. -/
def sortKeyLe (t u : Transaction) : Bool :=
  dateLt t.date u.date ||
    (t.date == u.date &&
      (strLt t.transaction_type.value u.transaction_type.value ||
        t.transaction_type.value == u.transaction_type.value))

/-- The sort relation as a proposition. -/
def SortKey (t u : Transaction) : Prop := sortKeyLe t u = true

instance : DecidableRel SortKey := fun t u => by
  unfold SortKey
  infer_instance

/-- Python's stable `list.sort(key=lambda t: (t.date, t.transaction_type.value))`,
modelled by the stable insertion sort under the key's total preorder. -/
def pySortTxns (l : List Transaction) : List Transaction :=
  List.insertionSort SortKey l

/-- `TruistParser.parse` over the per-page texts; `todayYear` models
`date.today().year`.  With no pages, `_year` stays `None`, no page is
classified, and the year is never read (the placeholder 0 is dead). -/
def truistParse (pages : List (List Char)) (todayYear : Int) :
    Except PyErr BankStatement := do
  let meta ←
    match pages with
    | [] => .ok ((none : Option Int), (none : Option (List Char)))
    | p :: _ => (extract_metadata p todayYear).map (fun r => (some r.1, r.2))
  let pe ← extract_statement_period
    (match pages with | [] => [] | p :: _ => p) meta.1
  let flags := classify_pages pages
  let year := match meta.1 with | some y => y | none => 0
  let all ← pagesTxns year (pages.zip flags)
  .ok { bank_name := "Truist".data
        account_number := meta.2
        statement_period_start := pe.1
        statement_period_end := pe.2
        transactions := pySortTxns all }

/-- `TruistParser.can_parse`: a nonempty document whose first page mentions
"truist" (case-insensitively). -/
def can_parse (pages : List (List Char)) : Bool :=
  match pages with
  | [] => false
  | p :: _ => containsCI "truist".data p

/-- `detect_bank` over the registry `BANK_PARSERS = [TruistParser]`. -/
def detect_bank (pages : List (List Char)) : Option Unit :=
  if can_parse pages then some () else none

/-- `extract_statement` (extractor.py): raise `ValueError` when no registered
parser matches, otherwise parse with the detected parser. -/
def extract_statement (pages : List (List Char)) (todayYear : Int) :
    Except PyErr BankStatement :=
  match detect_bank pages with
  | none => .error .valueError
  | some _ => truistParse pages todayYear

/-- The exception-absorbing view of one line: `none` when the line is
skipped (for any reason) and `some t` when it yields a record. -/
def lineTxn (year : Int) (tt : TransactionType) (line : List Char) :
    Option Transaction :=
  match lineTxnE year tt line with
  | .ok o => o
  | .error _ => none

/-- Spec-side predicate for C1: the claimed ordering — non-decreasing by
`(date, category)` where the category tie-break is the declared enum order
CHECK, WITHDRAWAL, DEPOSIT. -/
def ttEnumRank : TransactionType → Nat
  | .check => 0
  | .withdrawal => 1
  | .deposit => 2

/-- Spec-side predicate for C1, adjacent-pair form. -/
def enumPairSortedB : List Transaction → Bool
  | [] => true
  | [_] => true
  | a :: b :: r =>
    (dateLt a.date b.date ||
      (a.date == b.date && decide (ttEnumRank a.transaction_type ≤ ttEnumRank b.transaction_type)))
      && enumPairSortedB (b :: r)

/-- Spec-side predicate for C4: a valid signless decimal with exactly two
fractional digits (nonempty integer digits, a point, two digits). -/
def isSignlessTwoFrac (s : List Char) : Bool :=
  match s.reverse with
  | f :: e :: '.' :: rest => rest ≠ [] && rest.all isDig && isDig e && isDig f
  | _ => false

/-- The cleaned remainder `parse_amount` hands to the `Decimal` constructor. -/
def cleanedAmt (s : List Char) : List Char := pyStrip (stripCommas s)

/-- C2's hypothesis, decidably: every matched period date string yields a
valid calendar date. -/
def periodCapturesOk (text : List Char) : Bool :=
  (match searchCap (balAt "previous".data) text with
    | some (_, _, g) => (periodDateE g).isOk
    | none => true) &&
  (match searchCap (balAt "new".data) text with
    | some (_, _, g) => (periodDateE g).isOk
    | none => true)

/-- A continuation page with a table header, no section markers, and a
keyword window containing both a withdrawal keyword (ZELLE) and a deposit
keyword (DEPOSIT): the C10 double-count page. -/
def c10Page : List Char :=
  "(continued)\nDATE DESCRIPTION AMOUNT\n03/15 ZELLE DEPOSIT PAYMENT  100.00\n".data

/-- A Truist document page with the same mixed-keyword shape, long enough to
be classified as a transaction page: the C1 counterexample document. -/
def c1Page : List Char :=
  "Truist (continued)\nDATE DESCRIPTION AMOUNT\n03/15 ZELLE DEPOSIT PAYMENT TO ACME LOGISTICS VENDOR  100.00\npadding padding padding padding padding\n".data

/-- The statement `truistParse` produces for `c1Page`. -/
def c1Stmt : BankStatement :=
  (truistParse [c1Page] 2025).toOption.getD
    { bank_name := [], account_number := none, statement_period_start := none,
      statement_period_end := none, transactions := [] }

/-- A detected (Truist) document whose only page is boilerplate: every page
is classified non-transaction.  Used against C3. -/
def c3Pages : List (List Char) :=
  ["truist bank disclosures\nQuestions, comments or errors?\ncall us".data]

/-- A continuation page whose keyword window holds only deposit-indicative
keywords (INCOMING WIRE): the C5 witness page. -/
def c5Page : List Char :=
  "(continued)\nDATE DESCRIPTION AMOUNT\n03/15 INCOMING WIRE TRANSFER  50.00\n".data

/-- A boilerplate page that also carries a transaction marker and three
date/amount rows: boilerplate must override both.  Used for C7. -/
def c7PageA : List Char :=
  "How to Reconcile Your Account\nDATE DESCRIPTION AMOUNT\n01/01 alpha 1.00\n01/02 beta 2.00\n01/03 gamma 3.00\nmore than one hundred characters of padding text follow here so the length check passes".data

/-- A page below the 100-character threshold.  Used for C7. -/
def c7PageB : List Char := "short page".data

/-- The synthetic withdrawals block of C8. -/
def c8Block : List Char :=
  "DATE DESCRIPTION AMOUNT\n03/15 ACME CORP PAYMENT  123.45\n".data

/-- A checks page with two check entries.  Used as the C9 witness input. -/
def c9Page : List Char :=
  "Account summary\nChecks\n03/02 *1042  250.00\n03/05 1043  10.50\nTotal checks 2\n".data

/-- A first page whose period anchors both match valid calendar dates. -/
def c2GoodPage : List Char :=
  "Truist For 10/31/2025 previous balance as of 10/01/2025 new balance as of 10/31/2025 CHECKING 1340006375358".data

/-- A first page whose matched period month/day digits are out of calendar
range: `13/45/2025`. -/
def c2BadPage : List Char := "previous balance as of 13/45/2025".data

set_option maxRecDepth 1000000

theorem pyIntE_err (s : List Char) (e : PyErr) (h : pyIntE s = .error e) :
    e = .valueError := by
  simp only [pyIntE] at h
  split at h <;> split at h <;> simp_all

theorem parse_date_err (s : List Char) (y : Int) (e : PyErr)
    (h : parse_date s y = .error e) : e = .valueError := by
  unfold parse_date at h
  split at h
  case _ ms ds2 hsp =>
    cases hm : pyIntE ms with
    | error e1 =>
      rw [hm] at h
      have h2 : (Except.error e1 : Except PyErr PyDate) = Except.error e := h
      cases h2
      exact pyIntE_err ms e hm
    | ok m =>
      rw [hm] at h
      have h2 : (do
          let d ← pyIntE ds2
          match mkDate y m d with
          | some dt => Except.ok dt
          | none => Except.error PyErr.valueError) = Except.error e := h
      cases hd : pyIntE ds2 with
      | error e2 =>
        rw [hd] at h2
        have h3 : (Except.error e2 : Except PyErr PyDate) = Except.error e := h2
        cases h3
        exact pyIntE_err ds2 e hd
      | ok d =>
        rw [hd] at h2
        have h3 : (match mkDate y m d with
          | some dt => Except.ok dt
          | none => Except.error PyErr.valueError) = Except.error e := h2
        split at h3 <;> simp_all
  case _ =>
    cases h
    rfl

theorem parse_amount_err (s : List Char) (e : PyErr)
    (h : parse_amount s = .error e) : e = .invalidOperation := by
  simp only [parse_amount] at h
  split at h <;> simp_all

theorem mkTransaction_err (d : PyDate) (desc : List Char) (a : PyDecimal)
    (tt : TransactionType) (cn : Option Int) (e : PyErr)
    (h : mkTransaction d desc a tt cn = .error e) : e = .valueError := by
  unfold mkTransaction at h
  split at h <;> simp_all

theorem mkTransaction_ok (d : PyDate) (desc : List Char) (a : PyDecimal)
    (tt : TransactionType) (cn : Option Int) (t : Transaction)
    (h : mkTransaction d desc a tt cn = .ok t) :
    t = ⟨d, desc, a, tt, cn⟩ ∧ a.geZero = true := by
  unfold mkTransaction at h
  split at h <;> simp_all

/-- The record-construction block of one transaction line can only raise the
two caught exception kinds. -/
theorem lineBuildE_err (ds desc amt : List Char) (y : Int) (tt : TransactionType)
    (e : PyErr)
    (h : (do
        let d ← parse_date ds y
        let a ← parse_amount amt
        mkTransaction d desc a tt none) = Except.error e) :
    e = .valueError ∨ e = .invalidOperation := by
  cases hd : parse_date ds y with
  | error e1 =>
    rw [hd] at h
    have h2 : (Except.error e1 : Except PyErr Transaction) = Except.error e := h
    cases h2
    exact Or.inl (parse_date_err ds y e hd)
  | ok d =>
    rw [hd] at h
    have h2 : (do
        let a ← parse_amount amt
        mkTransaction d desc a tt none) = Except.error e := h
    cases ha : parse_amount amt with
    | error e2 =>
      rw [ha] at h2
      have h3 : (Except.error e2 : Except PyErr Transaction) = Except.error e := h2
      cases h3
      exact Or.inr (parse_amount_err amt e ha)
    | ok a =>
      rw [ha] at h2
      have h3 : mkTransaction d desc a tt none = Except.error e := h2
      exact Or.inl (mkTransaction_err d desc a tt none e h3)

/-- `lineTxnE` never propagates an exception: every failure is caught at the
single line. -/
theorem lineTxnE_eq_ok (y : Int) (tt : TransactionType) (l : List Char) :
    lineTxnE y tt l = .ok (lineTxn y tt l) := by
  unfold lineTxn
  cases h : lineTxnE y tt l with
  | ok o => rfl
  | error e =>
    exfalso
    simp only [lineTxnE] at h
    split at h
    · simp_all
    · split at h
      · simp_all
      · split at h
        · simp_all
        · split at h
          · simp_all
          · split at h
            · simp_all
            · split at h
              · simp_all
              · split at h <;> try simp_all
                rename_i hb
                rcases lineBuildE_err _ _ _ y tt _ hb with h1 | h1 <;> simp_all

/-- The line loop equals a per-line `filterMap`: each line is handled
independently, and a failing line removes only itself. -/
theorem txnLinesGo_eq (y : Int) (tt : TransactionType) (ls : List (List Char)) :
    txnLinesGo y tt ls = .ok (ls.filterMap (lineTxn y tt)) := by
  induction ls with
  | nil => rfl
  | cons l rest ih =>
    unfold txnLinesGo
    rw [show (lineTxnE y tt l) = .ok (lineTxn y tt l) from lineTxnE_eq_ok y tt l]
    simp only [bind, Except.bind, ih, List.filterMap_cons]
    cases lineTxn y tt l <;> simp

/-- C6.  For every text span, year and declared category, the transaction
line parser terminates normally and never raises: it returns `.ok` of the
per-line `filterMap`, so a conversion failure on one line skips exactly that
line (its `lineTxn` is `none`) while every other matching line still
produces its record. -/
theorem c6_line_parser_never_raises (text : List Char) (y : Int)
    (tt : TransactionType) :
    extract_transactions_from_text text y tt =
      .ok ((splitCh '\n' text).filterMap (lineTxn y tt)) :=
  txnLinesGo_eq y tt (splitCh '\n' text)

/-- C7.  A page with a boilerplate marker is classified non-transaction no
matter what else it contains, and a page whose stripped text is below the
100-character threshold is classified non-transaction regardless of content. -/
theorem c7_boilerplate_and_length_override (t1 t2 : List Char)
    (h1 : hasBoilerplate t1 = true) (h2 : (pyStrip t2).length < 100) :
    is_transaction_page t1 = false ∧ is_transaction_page t2 = false := by
  constructor
  · unfold is_transaction_page
    simp [h1]
  · unfold is_transaction_page
    by_cases hb : hasBoilerplate t2 <;> simp [hb, h2]

/-- C7 witness: `c7PageA` carries boilerplate together with a transaction
marker and three date/amount rows; `c7PageB` is below the length threshold. -/
theorem c7_witness :
    is_transaction_page c7PageA = false ∧ is_transaction_page c7PageB = false :=
  c7_boilerplate_and_length_override c7PageA c7PageB (by decide) (by decide)

/-- C10.  On a continuation page whose keyword window holds both a
withdrawal keyword (ZELLE) and a deposit keyword (DEPOSIT), with a table
header and no section markers, the withdrawals and deposits extractors
resolve the identical span, and the same matched line is emitted twice:
once as a WITHDRAWAL and once as a DEPOSIT. -/
theorem c10_mixed_keywords_double_count :
    withdrawalsSpan c10Page = some (35, 72) ∧
    depositsSpan c10Page = some (35, 72) ∧
    hasKw withdrawalKws (slice c10Page 35 535) = true ∧
    hasKw depositKws (slice c10Page 35 535) = true ∧
    extract_withdrawals_from_page c10Page 2025 =
      .ok [⟨⟨2025, 3, 15⟩, "ZELLE DEPOSIT PAYMENT".data,
        .fin false 10000 (-2), .withdrawal, none⟩] ∧
    extract_deposits_from_page c10Page 2025 =
      .ok [⟨⟨2025, 3, 15⟩, "ZELLE DEPOSIT PAYMENT".data,
        .fin false 10000 (-2), .deposit, none⟩] :=
  ⟨rfl, rfl, rfl, rfl, rfl, rfl⟩

/-- C1 counterexample: on this document, `parse` succeeds and returns the
equal-dated pair (DEPOSIT, WITHDRAWAL) in that order — sorted by the enum
members' string values (`"deposit" < "withdrawal"`), which violates the
claimed declared-enum-order (CHECK, WITHDRAWAL, DEPOSIT) tie-break. -/
theorem c1_counterexample :
    truistParse [c1Page] 2025 = .ok c1Stmt ∧
    c1Stmt.transactions.map Transaction.transaction_type = [.deposit, .withdrawal] ∧
    c1Stmt.transactions.map Transaction.date = [⟨2025, 3, 15⟩, ⟨2025, 3, 15⟩] ∧
    enumPairSortedB c1Stmt.transactions = false :=
  ⟨rfl, rfl, rfl, by decide⟩

/-- C2 counterexample: a first page whose matched period digits are out of
calendar range makes `_extract_statement_period` raise `ValueError` instead
of degrading to an absent value. -/
theorem c2_counterexample :
    extract_statement_period c2BadPage (some 2025) = .error .valueError := rfl

/-- C3 counterexample: a detected Truist document whose every page is
classified non-transaction parses to an empty statement — no failure is
reported to the caller. -/
theorem c3_counterexample :
    extract_statement c3Pages 2098 =
      .ok ⟨"Truist".data, none, none, none, []⟩ ∧
    (∀ p ∈ c3Pages, is_transaction_page p = false) :=
  ⟨rfl, by decide⟩

/-- C4 counterexample: `"5.123"` is not a signless two-fractional-digit
decimal, yet `parse_amount` accepts it (the `Decimal` constructor admits any
precision), refuting the claimed "fails if and only if". -/
theorem c4_counterexample :
    parse_amount "5.123".data = .ok (.fin false 5123 (-3)) ∧
    isSignlessTwoFrac (cleanedAmt "5.123".data) = false :=
  ⟨rfl, by decide⟩

/-- C8 counterexample: at year 0 (out of `datetime.date` range) the
conversion failure is caught and the line skipped, so the synthetic block
yields no transaction at all rather than exactly one. -/
theorem c8_counterexample :
    extract_transactions_from_text c8Block 0 .withdrawal = .ok [] := rfl

/-- Every record built by the withdrawal/deposit line constructor has no
check number, carries the declared category, and passed the `ge=0` check. -/
theorem lineBuildE_ok (ds desc amt : List Char) (y : Int) (tt : TransactionType)
    (t : Transaction)
    (h : (do
        let d ← parse_date ds y
        let a ← parse_amount amt
        mkTransaction d desc a tt none) = Except.ok t) :
    t.check_number = none ∧ t.transaction_type = tt ∧ t.amount.geZero = true := by
  cases hd : parse_date ds y with
  | error e1 =>
    rw [hd] at h
    have h2 : (Except.error e1 : Except PyErr Transaction) = Except.ok t := h
    cases h2
  | ok d =>
    rw [hd] at h
    have h2 : (do
        let a ← parse_amount amt
        mkTransaction d desc a tt none) = Except.ok t := h
    cases ha : parse_amount amt with
    | error e2 =>
      rw [ha] at h2
      have h3 : (Except.error e2 : Except PyErr Transaction) = Except.ok t := h2
      cases h3
    | ok a =>
      rw [ha] at h2
      have h3 : mkTransaction d desc a tt none = Except.ok t := h2
      obtain ⟨ht, hz⟩ := mkTransaction_ok d desc a tt none t h3
      subst ht
      exact ⟨rfl, rfl, hz⟩

/-- Every record the line parser emits has no check number, the declared
category, and a `ge=0`-validated amount. -/
theorem lineTxn_mem (y : Int) (tt : TransactionType) (l : List Char)
    (t : Transaction) (h : lineTxn y tt l = some t) :
    t.check_number = none ∧ t.transaction_type = tt ∧ t.amount.geZero = true := by
  unfold lineTxn at h
  cases he : lineTxnE y tt l with
  | error e => rw [he] at h; cases h
  | ok o =>
    rw [he] at h
    subst h
    simp only [lineTxnE] at he
    split at he
    · simp_all
    · split at he
      · simp_all
      · split at he
        · simp_all
        · split at he
          · simp_all
          · split at he
            · simp_all
            · split at he
              · simp_all
              · split at he
                · rename_i hb
                  cases he
                  exact lineBuildE_ok _ _ _ y tt _ hb
                all_goals simp_all

/-- The same, for a span handed to `_extract_transactions_from_text`. -/
theorem extractTxt_mem (text : List Char) (y : Int) (tt : TransactionType)
    (l : List Transaction) (t : Transaction)
    (h : extract_transactions_from_text text y tt = .ok l) (hm : t ∈ l) :
    t.check_number = none ∧ t.transaction_type = tt ∧ t.amount.geZero = true := by
  unfold extract_transactions_from_text at h
  rw [txnLinesGo_eq y tt (splitCh '\n' text)] at h
  cases h
  obtain ⟨line, _, hl⟩ := List.mem_filterMap.mp hm
  exact lineTxn_mem y tt line t hl

/-- Every record built by the check-entry constructor has a check number,
category CHECK, and a `ge=0`-validated amount. -/
theorem checksBuildE_ok (ds desc num amt : List Char) (y : Int) (t : Transaction)
    (h : (do
        let d ← parse_date ds y
        let a ← parse_amount amt
        let cn ← pyIntE num
        mkTransaction d desc a .check (some cn)) = Except.ok t) :
    t.check_number.isSome = true ∧ t.transaction_type = .check ∧
      t.amount.geZero = true := by
  cases hd : parse_date ds y with
  | error e1 =>
    rw [hd] at h
    have h2 : (Except.error e1 : Except PyErr Transaction) = Except.ok t := h
    cases h2
  | ok d =>
    rw [hd] at h
    have h2 : (do
        let a ← parse_amount amt
        let cn ← pyIntE num
        mkTransaction d desc a .check (some cn)) = Except.ok t := h
    cases ha : parse_amount amt with
    | error e2 =>
      rw [ha] at h2
      have h3 : (Except.error e2 : Except PyErr Transaction) = Except.ok t := h2
      cases h3
    | ok a =>
      rw [ha] at h2
      have h3 : (do
          let cn ← pyIntE num
          mkTransaction d desc a .check (some cn)) = Except.ok t := h2
      cases hn : pyIntE num with
      | error e3 =>
        rw [hn] at h3
        have h4 : (Except.error e3 : Except PyErr Transaction) = Except.ok t := h3
        cases h4
      | ok cn =>
        rw [hn] at h3
        have h4 : mkTransaction d desc a .check (some cn) = Except.ok t := h3
        obtain ⟨ht, hz⟩ := mkTransaction_ok d desc a .check (some cn) t h4
        subst ht
        exact ⟨rfl, rfl, hz⟩

/-- The check loop only emits records with a check number, category CHECK
and validated amount. -/
theorem checksGo_mem (y : Int) (entries : List (List Char × List Char × List Char))
    (l : List Transaction) (t : Transaction)
    (h : checksGo y entries = .ok l) (hm : t ∈ l) :
    t.check_number.isSome = true ∧ t.transaction_type = .check ∧
      t.amount.geZero = true := by
  induction entries generalizing l with
  | nil =>
    unfold checksGo at h
    cases h
    cases hm
  | cons hd rest ih =>
    obtain ⟨ds, num, amt⟩ := hd
    unfold checksGo at h
    split at h
    · rename_i t2 hb
      cases hr : checksGo y rest with
      | error e => rw [hr] at h; cases h
      | ok l2 =>
        rw [hr] at h
        have h2 : (Except.ok (t2 :: l2) : Except PyErr (List Transaction)) = .ok l := h
        cases h2
        cases hm with
        | head => exact checksBuildE_ok ds _ num amt y t hb
        | tail _ hm2 => exact ih l2 hr hm2
    · exact ih l h hm
    · exact ih l h hm
    · rename_i e _ _ _
      cases h

/-- Every record `extract_checks_from_page` emits has a check number,
category CHECK, and a validated amount. -/
theorem extractChecks_mem (text : List Char) (y : Int) (l : List Transaction)
    (t : Transaction) (h : extract_checks_from_page text y = .ok l) (hm : t ∈ l) :
    t.check_number.isSome = true ∧ t.transaction_type = .check ∧
      t.amount.geZero = true := by
  unfold extract_checks_from_page at h
  split at h
  · cases h; cases hm
  · exact checksGo_mem y _ l t h hm

/-- C9.  Every transaction produced by any of the three extraction paths
satisfies the invariant: a check number is present exactly when the category
is CHECK, and the amount passed pydantic's `amount ≥ 0` validation. -/
theorem c9_check_number_and_amount_invariant (text : List Char) (y : Int)
    (l : List Transaction) (t : Transaction)
    (h : extract_checks_from_page text y = .ok l ∨
      extract_withdrawals_from_page text y = .ok l ∨
      extract_deposits_from_page text y = .ok l)
    (hm : t ∈ l) :
    (t.check_number.isSome = true ↔ t.transaction_type = .check) ∧
      t.amount.geZero = true := by
  rcases h with h | h | h
  · obtain ⟨h1, h2, h3⟩ := extractChecks_mem text y l t h hm
    exact ⟨⟨fun _ => h2, fun _ => h1⟩, h3⟩
  · unfold extract_withdrawals_from_page at h
    split at h
    · cases h; cases hm
    · obtain ⟨h1, h2, h3⟩ := extractTxt_mem _ y .withdrawal l t h hm
      refine ⟨?_, h3⟩
      rw [h1, h2]
      simp
  · unfold extract_deposits_from_page at h
    split at h
    · cases h; cases hm
    · obtain ⟨h1, h2, h3⟩ := extractTxt_mem _ y .deposit l t h hm
      refine ⟨?_, h3⟩
      rw [h1, h2]
      simp

/-- C9 witness: the invariant, discharged on the concrete checks page. -/
theorem c9_witness :
    ((⟨⟨2025, 3, 2⟩, "Check #1042".data, .fin false 25000 (-2), .check,
        some 1042⟩ : Transaction).check_number.isSome = true ↔
      (⟨⟨2025, 3, 2⟩, "Check #1042".data, .fin false 25000 (-2), .check,
        some 1042⟩ : Transaction).transaction_type = .check) ∧
    (⟨⟨2025, 3, 2⟩, "Check #1042".data, .fin false 25000 (-2), .check,
      some 1042⟩ : Transaction).amount.geZero = true :=
  c9_check_number_and_amount_invariant c9Page 2025
    [⟨⟨2025, 3, 2⟩, "Check #1042".data, .fin false 25000 (-2), .check, some 1042⟩,
     ⟨⟨2025, 3, 5⟩, "Check #1043".data, .fin false 1050 (-2), .check, some 1043⟩]
    _ (Or.inl rfl) (by simp)

/-- C5.  On a continuation page with a table header and no section-header,
table or total-withdrawals markers: a window with only deposit keywords
routes the span to deposits (and withdrawals sees none); a window with only
withdrawal keywords routes it to withdrawals (and deposits sees none); a
window with neither yields no span for either category. -/
theorem c5_continuation_keyword_routing (text : List Char) (p n : Nat)
    (hc : isContinuation text = true)
    (hwh : (find_section_markers text).withdraw_header = none)
    (hwt : (find_section_markers text).withdraw_table = none)
    (hdh : (find_section_markers text).deposit_header = none)
    (hdt : (find_section_markers text).deposit_table = none)
    (htw : (find_section_markers text).total_withdraw = none)
    (hth : searchM thM text = some (p, n)) :
    (hasKw depositKws (slice text (p + n) (p + n + 500)) = true →
      hasKw withdrawalKws (slice text (p + n) (p + n + 500)) = false →
      depositsStart text = some (p + n) ∧ withdrawalsSpan text = none) ∧
    (hasKw withdrawalKws (slice text (p + n) (p + n + 500)) = true →
      hasKw depositKws (slice text (p + n) (p + n + 500)) = false →
      (withdrawalsSpan text).map Prod.fst = some (p + n) ∧
        depositsStart text = none) ∧
    (hasKw withdrawalKws (slice text (p + n) (p + n + 500)) = false →
      hasKw depositKws (slice text (p + n) (p + n + 500)) = false →
      withdrawalsSpan text = none ∧ depositsStart text = none) := by
  refine ⟨?_, ?_, ?_⟩
  · intro h1 h2
    constructor
    · simp [depositsStart, hc, hwh, hwt, hdt, htw, hth, h1]
    · simp [withdrawalsSpan, hc, hwt, hdh, hdt, htw, hth, h1, h2]
  · intro h1 h2
    constructor
    · simp only [withdrawalsSpan, hc, hwt, hdh, hdt, htw, hth]
      simp [h1, h2]
      cases hcp : searchM contPageM (text.drop (p + n)) <;> simp [hcp]
    · simp [depositsStart, hc, hwh, hwt, hdt, htw, hth, h2]
  · intro h1 h2
    constructor
    · simp [withdrawalsSpan, hc, hwt, hdh, hdt, htw, hth, h1, h2]
    · simp [depositsStart, hc, hwh, hwt, hdt, htw, hth, h2]

/-- C5 witness: the deposits-only-keyword case discharged on `c5Page`
(window keyword INCOMING WIRE), yielding a deposits span and no withdrawals
span. -/
theorem c5_witness :
    depositsStart c5Page = some 35 ∧ withdrawalsSpan c5Page = none :=
  (c5_continuation_keyword_routing c5Page 12 23 (by decide) (by decide) (by decide)
    (by decide) (by decide) (by decide) rfl).1 (by decide) (by decide)

theorem dateLt_trans (a b c : PyDate) (h1 : dateLt a b = true)
    (h2 : dateLt b c = true) : dateLt a c = true := by
  obtain ⟨ya, ma, da⟩ := a
  obtain ⟨yb, mb, db⟩ := b
  obtain ⟨yc, mc, dc⟩ := c
  simp only [dateLt, Bool.or_eq_true, Bool.and_eq_true, decide_eq_true_eq,
    beq_iff_eq] at h1 h2 ⊢
  omega

theorem date_tri (a b : PyDate) :
    dateLt a b = true ∨ a = b ∨ dateLt b a = true := by
  obtain ⟨ya, ma, da⟩ := a
  obtain ⟨yb, mb, db⟩ := b
  simp only [dateLt, Bool.or_eq_true, Bool.and_eq_true, decide_eq_true_eq,
    beq_iff_eq, PyDate.mk.injEq]
  omega

theorem value_trans (x y z : TransactionType)
    (h1 : strLt x.value y.value = true ∨ x.value = y.value)
    (h2 : strLt y.value z.value = true ∨ y.value = z.value) :
    strLt x.value z.value = true ∨ x.value = z.value := by
  revert h1 h2
  cases x <;> cases y <;> cases z <;> decide

theorem value_total (x y : TransactionType) :
    strLt x.value y.value = true ∨ x.value = y.value ∨
      strLt y.value x.value = true := by
  cases x <;> cases y <;> decide

theorem sortKeyLe_iff (t u : Transaction) :
    sortKeyLe t u = true ↔
      (dateLt t.date u.date = true ∨
        (t.date = u.date ∧
          (strLt t.transaction_type.value u.transaction_type.value = true ∨
            t.transaction_type.value = u.transaction_type.value))) := by
  simp [sortKeyLe]

instance : IsTrans Transaction SortKey := by
  constructor
  intro t u v h1 h2
  rw [SortKey, sortKeyLe_iff] at h1 h2 ⊢
  rcases h1 with h1 | ⟨he1, hs1⟩
  · rcases h2 with h2 | ⟨he2, _⟩
    · exact Or.inl (dateLt_trans _ _ _ h1 h2)
    · exact Or.inl (he2 ▸ h1)
  · rcases h2 with h2 | ⟨he2, hs2⟩
    · exact Or.inl (he1 ▸ h2)
    · exact Or.inr ⟨he1.trans he2, value_trans _ _ _ hs1 hs2⟩

instance : IsTotal Transaction SortKey := by
  constructor
  intro t u
  rw [SortKey, SortKey, sortKeyLe_iff, sortKeyLe_iff]
  rcases date_tri t.date u.date with h | h | h
  · exact Or.inl (Or.inl h)
  · rcases value_total t.transaction_type u.transaction_type with hv | hv | hv
    · exact Or.inl (Or.inr ⟨h, Or.inl hv⟩)
    · exact Or.inl (Or.inr ⟨h, Or.inr hv⟩)
    · exact Or.inr (Or.inr ⟨h.symm, Or.inl hv⟩)
  · exact Or.inr (Or.inl h)

/-- The assembler's final sort produces a list sorted under the
`(date, transaction_type.value)` key. -/
theorem pySortTxns_sorted (l : List Transaction) :
    List.Sorted SortKey (pySortTxns l) :=
  List.sorted_insertionSort SortKey l

/-- C1 (amended).  Every statement `parse` returns has its transactions
sorted non-decreasing by `(date, transaction_type.value)` — the category
tie-break is the lexicographic order of the enum members' string values
(`"check" < "deposit" < "withdrawal"`), not the declared enum order. -/
theorem c1_parse_sorted_by_value (pages : List (List Char)) (ty : Int)
    (s : BankStatement) (h : truistParse pages ty = .ok s) :
    List.Sorted SortKey s.transactions := by
  cases pages with
  | nil =>
    have h2 : (Except.ok
        { bank_name := "Truist".data, account_number := none,
          statement_period_start := none, statement_period_end := none,
          transactions := pySortTxns [] } : Except PyErr BankStatement) =
        Except.ok s := h
    cases h2
    exact pySortTxns_sorted []
  | cons p rest =>
    unfold truistParse at h
    dsimp only at h
    cases hm : extract_metadata p ty with
    | error e =>
      rw [hm] at h
      have h2 : (Except.error e : Except PyErr BankStatement) = Except.ok s := h
      cases h2
    | ok meta =>
      rw [hm] at h
      obtain ⟨y, acct⟩ := meta
      have h2 : Except.bind (extract_statement_period p (some y)) (fun pe =>
          Except.bind (pagesTxns y ((p :: rest).zip (classify_pages (p :: rest))))
            (fun all => Except.ok
              { bank_name := "Truist".data
                account_number := acct
                statement_period_start := pe.1
                statement_period_end := pe.2
                transactions := pySortTxns all })) = Except.ok s := h
      cases hp : extract_statement_period p (some y) with
      | error e =>
        rw [hp] at h2
        have h3 : (Except.error e : Except PyErr BankStatement) = Except.ok s := h2
        cases h3
      | ok pe =>
        rw [hp] at h2
        have h3 : Except.bind
            (pagesTxns y ((p :: rest).zip (classify_pages (p :: rest))))
            (fun all => Except.ok
              { bank_name := "Truist".data
                account_number := acct
                statement_period_start := pe.1
                statement_period_end := pe.2
                transactions := pySortTxns all }) = Except.ok s := h2
        cases ha : pagesTxns y ((p :: rest).zip (classify_pages (p :: rest))) with
        | error e =>
          rw [ha] at h3
          have h4 : (Except.error e : Except PyErr BankStatement) = Except.ok s := h3
          cases h4
        | ok all =>
          rw [ha] at h3
          have h4 : (Except.ok
              { bank_name := "Truist".data, account_number := acct,
                statement_period_start := pe.1, statement_period_end := pe.2,
                transactions := pySortTxns all } : Except PyErr BankStatement) =
              Except.ok s := h3
          cases h4
          exact pySortTxns_sorted all

/-- C1 witness: the amended ordering on the concrete parsed statement. -/
theorem c1_witness : List.Sorted SortKey c1Stmt.transactions :=
  c1_parse_sorted_by_value [c1Page] 2025 c1Stmt rfl

theorem dropWhile_eq_self_of (p : Char → Bool) (l : List Char)
    (h : ∀ c ∈ l, p c = false) : l.dropWhile p = l := by
  cases l with
  | nil => rfl
  | cons c t =>
    rw [List.dropWhile_cons]
    simp [h c (List.mem_cons_self c t)]

theorem pyStrip_eq_self (l : List Char) (h : ∀ c ∈ l, isWs c = false) :
    pyStrip l = l := by
  unfold pyStrip
  rw [dropWhile_eq_self_of isWs l h]
  rw [dropWhile_eq_self_of isWs l.reverse (fun c hc => h c (List.mem_reverse.mp hc))]
  exact List.reverse_reverse l

theorem dig_not_ws (c : Char) (h : isDig c = true) : isWs c = false := by
  simp only [isDig, Bool.and_eq_true, decide_eq_true_eq] at h
  simp only [isWs, Bool.or_eq_false_iff, beq_eq_false_iff_ne]
  refine ⟨⟨⟨⟨⟨?_, ?_⟩, ?_⟩, ?_⟩, ?_⟩, ?_⟩ <;>
    (intro he; subst he; exact absurd h (by decide))

theorem pyStrip_digits (l : List Char) (h : l.all isDig = true) :
    pyStrip l = l :=
  pyStrip_eq_self l (fun c hc =>
    dig_not_ws c ((List.all_eq_true.mp h) c hc))

/-- `int()` succeeds on a nonempty digit capture, returning its value. -/
theorem pyIntE_digits (l : List Char) (h1 : l ≠ []) (h2 : l.all isDig = true) :
    pyIntE l = .ok (digitsVal l) := by
  have hs : pyStrip l = l := pyStrip_digits l h2
  simp only [pyIntE, hs]
  split
  · simp only [List.all_cons, Bool.and_eq_true] at h2
    exact absurd h2.1 (by decide)
  · simp only [List.all_cons, Bool.and_eq_true] at h2
    exact absurd h2.1 (by decide)
  · rw [if_pos ⟨h1, h2⟩]

/-- A successful leftmost capturing search comes from a successful match. -/
theorem searchCap_imp {α : Type} (m : List Char → Option (Nat × α))
    (P : α → Prop) (hm : ∀ s r, m s = some r → P r.2) :
    ∀ s q, searchCap m s = some q → P q.2.2 := by
  intro s
  induction s with
  | nil =>
    intro q h
    unfold searchCap at h
    split at h
    · rename_i n a heq
      cases h
      exact hm [] (n, a) heq
    · cases h
  | cons c rest ih =>
    intro q h
    unfold searchCap at h
    split at h
    · rename_i n a heq
      cases h
      exact hm (c :: rest) (n, a) heq
    · rename_i heq
      cases hr : searchCap m rest with
      | none => rw [hr] at h; cases h
      | some q2 =>
        rw [hr] at h
        have h2 : some (q2.1 + 1, q2.2) = some q := h
        cases h2
        exact ih q2 hr

/-- The year capture of the `For ...` date pattern is a nonempty digit run. -/
theorem forDateAt_shape (s : List Char) (r : Nat × List Char)
    (h : forDateAt s = some r) : r.2 ≠ [] ∧ r.2.all isDig = true := by
  simp only [forDateAt] at h
  split at h
  · split at h
    · split at h
      · split at h
        · rename_i hy4
          cases h
          dsimp only
          exact ⟨fun he => by rw [he] at hy4; simp at hy4, hy4.2⟩
        · split at h
          · rename_i hy2
            cases h
            dsimp only
            exact ⟨fun he => by rw [he] at hy2; simp at hy2, hy2.2⟩
          · cases h
      · cases h
    · cases h
  · cases h

/-- The fallback `20\d{2}` capture is a nonempty digit run. -/
theorem year20At_shape (s : List Char) (r : Nat × List Char)
    (h : year20At s = some r) : r.2 ≠ [] ∧ r.2.all isDig = true := by
  unfold year20At at h
  split at h
  · split at h
    · rename_i hcd
      cases h
      simp_all [isDig]
    · cases h
  · cases h

/-- Year and account extraction never raise: every capture the year patterns
can produce is a digit run, and `int()` succeeds on digit runs. -/
theorem extract_metadata_isOk (text : List Char) (ty : Int) :
    (extract_metadata text ty).isOk = true := by
  unfold extract_metadata
  cases hf : searchCap forDateAt text with
  | some q =>
    have hq : q.2.2 ≠ [] ∧ q.2.2.all isDig = true :=
      searchCap_imp forDateAt (fun c => c ≠ [] ∧ c.all isDig = true)
        forDateAt_shape text q hf
    obtain ⟨q1, q2, ys⟩ := q
    simp only [hf, pyIntE_digits ys hq.1 hq.2]
    by_cases hl : ys.length = 2
    · rw [if_pos hl]
      rfl
    · rw [if_neg hl]
      rfl
  | none =>
    cases hg : searchCap year20At text with
    | some q =>
      have hq : q.2.2 ≠ [] ∧ q.2.2.all isDig = true :=
        searchCap_imp year20At (fun c => c ≠ [] ∧ c.all isDig = true)
          year20At_shape text q hg
      obtain ⟨q1, q2, ys⟩ := q
      simp only [hf, hg, pyIntE_digits ys hq.1 hq.2]
      rfl
    | none =>
      simp only [hf, hg]
      rfl

/-- When every matched period date is a valid calendar date, period
extraction terminates normally. -/
theorem period_isOk (text : List Char) (y : Option Int)
    (hp : periodCapturesOk text = true) :
    (extract_statement_period text y).isOk = true := by
  unfold periodCapturesOk at hp
  rw [Bool.and_eq_true] at hp
  obtain ⟨hp1, hp2⟩ := hp
  unfold extract_statement_period
  split
  · rfl
  · cases hs : searchCap (balAt "previous".data) text with
    | some q =>
      obtain ⟨p1, p2, g⟩ := q
      rw [hs] at hp1
      have hp1b : (periodDateE g).isOk = true := hp1
      cases hd : periodDateE g with
      | error e =>
        rw [hd] at hp1b
        simp [Except.isOk, Except.toBool] at hp1b
      | ok d =>
        cases he : searchCap (balAt "new".data) text with
        | some q2 =>
          obtain ⟨e1, e2, g2⟩ := q2
          rw [he] at hp2
          have hp2b : (periodDateE g2).isOk = true := hp2
          cases hd2 : periodDateE g2 with
          | error e =>
            rw [hd2] at hp2b
            simp [Except.isOk, Except.toBool] at hp2b
          | ok d2 =>
            dsimp only
            rw [hd, hd2]
            rfl
        | none =>
          dsimp only
          rw [hd]
          rfl
    | none =>
      cases he : searchCap (balAt "new".data) text with
      | some q2 =>
        obtain ⟨e1, e2, g2⟩ := q2
        rw [he] at hp2
        have hp2b : (periodDateE g2).isOk = true := hp2
        cases hd2 : periodDateE g2 with
        | error e =>
          rw [hd2] at hp2b
          simp [Except.isOk, Except.toBool] at hp2b
        | ok d2 =>
          dsimp only
          rw [hd2]
          rfl
      | none => rfl

/-- C2 (amended).  Year and account extraction never raise for any first
page; period extraction never raises provided every matched period date is a
valid calendar date (out-of-range matched digits do raise — see the
counterexample). -/
theorem c2_metadata_best_effort (text : List Char) (ty : Int) (y : Option Int) :
    (extract_metadata text ty).isOk = true ∧
      (periodCapturesOk text = true →
        (extract_statement_period text y).isOk = true) :=
  ⟨extract_metadata_isOk text ty, fun hp => period_isOk text y hp⟩

/-- C2 witness: discharged on a concrete first page with valid period dates. -/
theorem c2_witness :
    (extract_metadata c2GoodPage 2024).isOk = true ∧
      (extract_statement_period c2GoodPage (some 2025)).isOk = true :=
  ⟨(c2_metadata_best_effort c2GoodPage 2024 (some 2025)).1,
    (c2_metadata_best_effort c2GoodPage 2024 (some 2025)).2 (by decide)⟩

/-- The page loop contributes nothing when every page is flagged
non-transaction. -/
theorem pagesTxns_all_skipped (y : Int) (l : List (List Char × Bool))
    (h : ∀ pr ∈ l, pr.2 = false) : pagesTxns y l = .ok [] := by
  induction l with
  | nil => rfl
  | cons pr rest ih =>
    obtain ⟨pg, fl⟩ := pr
    have hf : fl = false := h (pg, fl) (List.mem_cons_self _ _)
    subst hf
    exact ih (fun pr hpr => h pr (List.mem_cons_of_mem _ hpr))

/-- A pair drawn from a list zipped with its own map has the mapped second
component. -/
theorem mem_zip_map (l : List (List Char)) (f : List Char → Bool)
    (pr : List Char × Bool) (hpr : pr ∈ l.zip (l.map f)) : pr.2 = f pr.1 := by
  induction l with
  | nil => cases hpr
  | cons a t ih =>
    rw [List.map_cons, List.zip_cons_cons] at hpr
    cases hpr with
    | head => rfl
    | tail _ h2 => exact ih h2

/-- All-false classification transfers to the zipped page/flag pairs. -/
theorem classify_all_false (pages : List (List Char))
    (h : ∀ p ∈ pages, is_transaction_page p = false) :
    ∀ pr ∈ pages.zip (classify_pages pages), pr.2 = false := by
  intro pr hpr
  unfold classify_pages at hpr
  rw [mem_zip_map pages is_transaction_page pr hpr]
  exact h pr.1 (List.of_mem_zip hpr).1

/-- C3 (amended).  When bank detection fails, a ValueError is raised.  When
every page of a detected document is classified non-transaction, the
assembler has no emptiness check and reports no failure on that account: if
the first page's matched period dates (if any) are valid calendar dates —
period extraction being the only other failure source, which can itself
raise as established against C2 — it returns a statement whose transactions
list is empty. -/
theorem c3_detect_failure_and_empty (pages : List (List Char)) (ty : Int) :
    (detect_bank pages = none → extract_statement pages ty = .error .valueError) ∧
    (detect_bank pages = some () →
      (∀ p ∈ pages, is_transaction_page p = false) →
      periodCapturesOk (pages.headD []) = true →
      ∃ s, extract_statement pages ty = .ok s ∧ s.transactions = []) := by
  constructor
  · intro hd
    unfold extract_statement
    rw [hd]
  · intro hd hall hper
    cases pages with
    | nil => simp [detect_bank, can_parse] at hd
    | cons p rest =>
      unfold extract_statement
      rw [hd]
      cases hm : extract_metadata p ty with
      | error e =>
        have hok := extract_metadata_isOk p ty
        rw [hm] at hok
        simp [Except.isOk, Except.toBool] at hok
      | ok meta =>
        obtain ⟨y, acct⟩ := meta
        have step1 : truistParse (p :: rest) ty =
            Except.bind (extract_statement_period p (some y)) (fun pe =>
              Except.bind
                (pagesTxns y ((p :: rest).zip (classify_pages (p :: rest))))
                (fun all => Except.ok
                  { bank_name := "Truist".data
                    account_number := acct
                    statement_period_start := pe.1
                    statement_period_end := pe.2
                    transactions := pySortTxns all })) := by
          unfold truistParse
          dsimp only
          rw [hm]
          rfl
        have hpok := period_isOk p (some y) hper
        cases hpk : extract_statement_period p (some y) with
        | error e =>
          rw [hpk] at hpok
          simp [Except.isOk, Except.toBool] at hpok
        | ok pe =>
          rw [hpk] at step1
          have hskip : pagesTxns y ((p :: rest).zip (classify_pages (p :: rest))) =
              .ok [] :=
            pagesTxns_all_skipped y _ (classify_all_false (p :: rest) hall)
          rw [hskip] at step1
          have step2 : truistParse (p :: rest) ty = Except.ok
              { bank_name := "Truist".data
                account_number := acct
                statement_period_start := pe.1
                statement_period_end := pe.2
                transactions := pySortTxns [] } := step1
          exact ⟨_, step2, rfl⟩

/-- C3 witness: the all-boilerplate Truist document parses to a statement
with no transactions and no reported failure. -/
theorem c3_witness :
    ∃ s, extract_statement c3Pages 2098 = .ok s ∧ s.transactions = [] :=
  (c3_detect_failure_and_empty c3Pages 2098).2 rfl (by decide) (by decide)

theorem takeWhile_all_append (p : Char → Bool) (l r : List Char)
    (h : ∀ c ∈ l, p c = true) :
    (l ++ r).takeWhile p = l ++ r.takeWhile p := by
  induction l with
  | nil => rfl
  | cons a t ih =>
    rw [List.cons_append, List.takeWhile_cons,
      if_pos (h a (List.mem_cons_self _ _)),
      ih (fun c hc => h c (List.mem_cons_of_mem _ hc))]
    rfl

theorem dig_ne_dot (c : Char) (hc : isDig c = true) : c ≠ '.' := by
  intro he
  subst he
  exact absurd hc (by decide)

theorem dig_ciEq_false (c d : Char) (hc : isDig c = true) (hd : 97 ≤ lowN d) :
    ciEq c d = false := by
  simp only [isDig, Bool.and_eq_true, decide_eq_true_eq] at hc
  have hlc : lowN c = c.toNat := by
    unfold lowN
    rw [if_neg (by omega)]
  simp only [ciEq, beq_eq_false_iff_ne]
  omega

theorem decSign_digit (c0 : Char) (X : List Char) (h0 : isDig c0 = true) :
    decSign (c0 :: X) = (false, c0 :: X) := by
  unfold decSign
  split
  · rename_i r heq
    injection heq with h1 h2
    subst h1
    exact absurd h0 (by decide)
  · rename_i r heq
    injection heq with h1 h2
    subst h1
    exact absurd h0 (by decide)
  · rfl

theorem decBody_two_frac (c0 : Char) (ip2 : List Char) (e f : Char)
    (h0 : isDig c0 = true) (hip : ∀ c ∈ ip2, isDig c = true)
    (he : isDig e = true) (hf : isDig f = true) :
    decBody false ((c0 :: ip2) ++ ['.', e, f]) =
      some (.fin false (digitsVal ((c0 :: ip2) ++ [e, f])) (-2)) := by
  have htw : ((c0 :: ip2) ++ ['.', e, f]).takeWhile isDig = c0 :: ip2 := by
    rw [takeWhile_all_append isDig (c0 :: ip2) _ (by
      intro c hc
      rcases List.mem_cons.mp hc with hc0 | hcc
      · exact hc0 ▸ h0
      · exact hip c hcc)]
    rw [List.takeWhile_cons, if_neg (by decide)]
    exact List.append_nil _
  simp only [decBody, htw]
  rw [List.drop_left]
  simp [List.takeWhile_cons, he, hf]

theorem decParse_two_frac (c0 : Char) (ip2 : List Char) (e f : Char)
    (h0 : isDig c0 = true) (hip : ∀ c ∈ ip2, isDig c = true)
    (he : isDig e = true) (hf : isDig f = true) :
    decParse ((c0 :: ip2) ++ ['.', e, f]) =
      some (.fin false (digitsVal ((c0 :: ip2) ++ [e, f])) (-2)) := by
  have hws : ∀ c ∈ c0 :: (ip2 ++ ['.', e, f]), isWs c = false := by
    intro c hc
    rcases List.mem_cons.mp hc with rfl | hc1
    · exact dig_not_ws _ h0
    rcases List.mem_append.mp hc1 with hc2 | hc2
    · exact dig_not_ws c (hip c hc2)
    rcases List.mem_cons.mp hc2 with rfl | hc3
    · decide
    rcases List.mem_cons.mp hc3 with rfl | hc4
    · exact dig_not_ws _ he
    rcases List.mem_cons.mp hc4 with rfl | hc5
    · exact dig_not_ws _ hf
    · cases hc5
  have hi : ciEq c0 'i' = false := dig_ciEq_false c0 'i' h0 (by decide)
  have hn : ciEq c0 'n' = false := dig_ciEq_false c0 'n' h0 (by decide)
  have hsn : ciEq c0 's' = false := dig_ciEq_false c0 's' h0 (by decide)
  simp only [decParse, pyStrip_eq_self _ hws, List.cons_append,
    decSign_digit c0 _ h0]
  rw [if_neg (by simp [startsCI, hi])]
  rw [if_neg (by simp [startsCI, hi])]
  rw [if_neg (by simp [startsCI, hn])]
  rw [if_neg (by simp [startsCI, hsn])]
  rw [← List.cons_append]
  exact decBody_two_frac c0 ip2 e f h0 hip he hf

theorem filter_two_frac (c0 : Char) (ip2 : List Char) (e f : Char)
    (h0 : isDig c0 = true) (hip : ∀ c ∈ ip2, isDig c = true)
    (he : isDig e = true) (hf : isDig f = true) :
    ((c0 :: ip2) ++ ['.', e, f]).filter (fun c => c ≠ '.') =
      (c0 :: ip2) ++ [e, f] := by
  rw [List.filter_append]
  have h1 : (c0 :: ip2).filter (fun c => c ≠ '.') = c0 :: ip2 := by
    rw [List.filter_eq_self]
    intro c hc
    rcases List.mem_cons.mp hc with rfl | hcc
    · simp only [decide_eq_true_eq]
      exact dig_ne_dot _ h0
    · simp only [decide_eq_true_eq]
      exact dig_ne_dot c (hip c hcc)
  rw [h1]
  simp [dig_ne_dot e he, dig_ne_dot f hf]

/-- C4 (amended).  On a remainder that is a signless decimal with exactly
two fractional digits, `parse_amount` succeeds and returns exactly that
value: the digits as coefficient with exponent −2.  (The converse of the
claimed failure condition is refuted by the counterexample: the `Decimal`
grammar accepts far more.) -/
theorem c4_two_frac_exact (s : List Char)
    (h : isSignlessTwoFrac (cleanedAmt s) = true) :
    parse_amount s =
      .ok (.fin false
        (digitsVal ((cleanedAmt s).filter (fun c => c ≠ '.'))) (-2)) := by
  have hpa : parse_amount s = (match decParse (cleanedAmt s) with
      | some d => Except.ok d
      | none => Except.error PyErr.invalidOperation) := rfl
  unfold isSignlessTwoFrac at h
  split at h
  case _ f2 e2 rest heq =>
    simp only [Bool.and_eq_true, decide_eq_true_eq] at h
    obtain ⟨⟨⟨hne, hall⟩, he⟩, hf⟩ := h
    have hT : cleanedAmt s = rest.reverse ++ ['.', e2, f2] := by
      have h2 := congrArg List.reverse heq
      rw [List.reverse_reverse] at h2
      rw [h2]
      simp
    cases hip : rest.reverse with
    | nil => exact absurd (List.reverse_eq_nil_iff.mp hip) hne
    | cons c0 ip2 =>
      rw [hip] at hT
      have hallIp : ∀ c ∈ c0 :: ip2, isDig c = true := by
        intro c hc
        rw [← hip] at hc
        exact (List.all_eq_true.mp hall) c (List.mem_reverse.mp hc)
      rw [hpa, hT,
        decParse_two_frac c0 ip2 e2 f2 (hallIp c0 (List.mem_cons_self _ _))
          (fun c hc => hallIp c (List.mem_cons_of_mem _ hc)) he hf,
        filter_two_frac c0 ip2 e2 f2 (hallIp c0 (List.mem_cons_self _ _))
          (fun c hc => hallIp c (List.mem_cons_of_mem _ hc)) he hf]
  case _ => exact absurd h (by simp)

/-- C4 witness: `"1,234.56"` cleans to the signless two-fractional
`"1234.56"` and parses to exactly 1234.56 (coefficient 123456, exponent −2). -/
theorem c4_witness :
    isSignlessTwoFrac (cleanedAmt " 1,234.56 ".data) = true ∧
      parse_amount " 1,234.56 ".data =
        .ok (.fin false
          (digitsVal ((cleanedAmt " 1,234.56 ".data).filter (fun c => c ≠ '.')))
          (-2)) :=
  ⟨by decide, c4_two_frac_exact " 1,234.56 ".data (by decide)⟩

theorem mkDate_mar15 (y : Int) (h1 : 1 ≤ y) (h2 : y ≤ 9999) :
    mkDate y 3 15 = some ⟨y, 3, 15⟩ := by
  unfold mkDate
  rw [if_pos]
  · rfl
  · refine ⟨h1, h2, by norm_num, by norm_num, by norm_num, ?_⟩
    have hd : daysInMonth y (Int.toNat 3) = 31 := rfl
    rw [hd]
    norm_num

theorem parse_date_0315 (y : Int) (h1 : 1 ≤ y) (h2 : y ≤ 9999) :
    parse_date ['0', '3', '/', '1', '5'] y = .ok ⟨y, 3, 15⟩ := by
  have hrfl : parse_date ['0', '3', '/', '1', '5'] y =
      (match mkDate y 3 15 with
        | some dt => Except.ok dt
        | none => Except.error PyErr.valueError) := rfl
  rw [hrfl, mkDate_mar15 y h1 h2]

/-- C8 (amended).  For every year in `datetime.date`'s range 1..9999, the
synthetic withdrawals block parses to exactly one WITHDRAWAL transaction
dated March 15 of that year with description "ACME CORP PAYMENT" and amount
123.45 (coefficient 12345, exponent −2). -/
theorem c8_round_trip (y : Int) (h1 : 1 ≤ y) (h2 : y ≤ 9999) :
    extract_transactions_from_text c8Block y .withdrawal =
      .ok [⟨⟨y, 3, 15⟩, "ACME CORP PAYMENT".data, .fin false 12345 (-2),
        .withdrawal, none⟩] := by
  have hb : (do
      let d ← parse_date ['0', '3', '/', '1', '5'] y
      let a ← parse_amount ['1', '2', '3', '.', '4', '5']
      mkTransaction d "ACME CORP PAYMENT".data a .withdrawal none :
        Except PyErr Transaction) =
      Except.ok ⟨⟨y, 3, 15⟩, "ACME CORP PAYMENT".data, .fin false 12345 (-2),
        .withdrawal, none⟩ := by
    rw [show (parse_date ['0', '3', '/', '1', '5'] y) =
      Except.ok (⟨y, 3, 15⟩ : PyDate) from parse_date_0315 y h1 h2]
    rfl
  have hstep : lineTxnE y .withdrawal "03/15 ACME CORP PAYMENT  123.45".data =
      (match (do
          let d ← parse_date ['0', '3', '/', '1', '5'] y
          let a ← parse_amount ['1', '2', '3', '.', '4', '5']
          mkTransaction d "ACME CORP PAYMENT".data a .withdrawal none :
            Except PyErr Transaction) with
        | Except.ok t => Except.ok (some t)
        | Except.error PyErr.valueError => Except.ok none
        | Except.error PyErr.invalidOperation => Except.ok none
        | Except.error e => Except.error e) := rfl
  rw [hb] at hstep
  have hbE : lineTxnE y .withdrawal "03/15 ACME CORP PAYMENT  123.45".data =
      Except.ok (some ⟨⟨y, 3, 15⟩, "ACME CORP PAYMENT".data,
        .fin false 12345 (-2), .withdrawal, none⟩) := hstep.trans rfl
  have hl2 : lineTxn y .withdrawal "03/15 ACME CORP PAYMENT  123.45".data =
      some ⟨⟨y, 3, 15⟩, "ACME CORP PAYMENT".data, .fin false 12345 (-2),
        .withdrawal, none⟩ := by
    unfold lineTxn
    rw [hbE]
  have hsplit : splitCh '\n' c8Block =
      ["DATE DESCRIPTION AMOUNT".data,
        "03/15 ACME CORP PAYMENT  123.45".data, []] := rfl
  have hl1 : lineTxn y .withdrawal "DATE DESCRIPTION AMOUNT".data = none := rfl
  have hl3 : lineTxn y .withdrawal [] = none := rfl
  unfold extract_transactions_from_text
  rw [txnLinesGo_eq, hsplit]
  simp only [List.filterMap_cons, List.filterMap_nil, hl1, hl2, hl3]

/-- C8 witness: the round trip at the concrete year 2025. -/
theorem c8_witness :
    extract_transactions_from_text c8Block 2025 .withdrawal =
      .ok [⟨⟨2025, 3, 15⟩, "ACME CORP PAYMENT".data, .fin false 12345 (-2),
        .withdrawal, none⟩] :=
  c8_round_trip 2025 (by norm_num) (by norm_num)

end FinTbl
